import Mathlib

/-!
Verification development for an array-storage benchmark (`methods.py`).

The program benchmarks round-trip persistence of 2-D numeric arrays across
a catalog of serialization formats.  Each format adapter is a class with
`save`/`load` plus a shared timing/verification wrapper (`time_save`,
`time_load`) inherited from `TimeArrStorage`.

Modelling conventions:
* Element values are exact integers (`Val := Int`); the spec's equality on
  arrays is exact elementwise equality and no format in the catalog claims
  to be lossy, so the external text/number codecs are modelled as exact.
* Formats whose on-disk layout the source builds by hand (the
  `Binary`/`b64Enc` header line, urlsafe base64, the sequential Fortran
  records, the delimited text table) are modelled at byte/record level.
* External codec libraries (numpy save/load, json_tricks, pickle,
  imgarray, scipy.io) are black boxes per the spec ("treated as black
  boxes with a known encode/decode contract"); their file content is kept
  structural.
* Wall-clock readings are passed in as parameters; the I/O effects of a
  call are recorded as an ordered event list so that statement order
  (sum before the time is recorded, removal after, the assert last) is
  visible in the model.
-/

namespace ArrayStorage

/-- A 2-D numeric array: shape, element-type name, and row-major data. -/
structure Arr where
  rows : Nat
  cols : Nat
  dtypeName : String
  data : List Int
deriving DecidableEq

/-- numpy `array_equal`: same shape and same elements (the dtype is not
compared by `array_equal`). -/
def array_equal (a b : Arr) : Bool :=
  a.rows == b.rows && a.cols == b.cols && a.data == b.data

/-- Python `arr.sum()`: the sum reduction over all elements. -/
def arrSum (a : Arr) : Int := a.data.sum

/-- The data of an array laid out as `r` rows of `c` consecutive elements
each (C order, as numpy stores it). -/
def takeRows : Nat → Nat → List Int → List (List Int)
  | 0, _, _ => []
  | r+1, c, xs => xs.take c :: takeRows r c (xs.drop c)

/-! ### int64 buffer layout

`arr.data` of a C-order int64 array is the elements as 8 little-endian
two's-complement bytes each; `frombuffer` reads them back.  The powers of
256 are written as literals (256^2 = 65536, …, 2^63 = 9223372036854775808,
2^64 = 18446744073709551616). -/

/-- The 8 little-endian two's-complement bytes of an int64 value. -/
def encVal8 (v : Int) : List Nat :=
  let n := (v % 18446744073709551616).toNat
  [n % 256, n / 256 % 256, n / 65536 % 256, n / 16777216 % 256,
   n / 4294967296 % 256, n / 1099511627776 % 256,
   n / 281474976710656 % 256, n / 72057594037927936 % 256]

/-- Value of a little-endian byte list. -/
def leVal : List Nat → Nat
  | [] => 0
  | b :: bs => b + 256 * leVal bs

/-- Read one int64 value back from its 8 little-endian bytes. -/
def decVal8 (bs : List Nat) : Int :=
  if leVal bs < 9223372036854775808 then (leVal bs : Int)
  else (leVal bs : Int) - 18446744073709551616

/-- The byte buffer `arr.data` exposes for an int64 array. -/
def valsToBytes : List Int → List Nat
  | [] => []
  | v :: vs => encVal8 v ++ valsToBytes vs

/-- Split a byte stream into int64 values (numpy `frombuffer` with an
8-byte dtype); fails when the length is not a multiple of 8. -/
def bytesToVals : List Nat → Option (List Int)
  | [] => some []
  | b0 :: b1 :: b2 :: b3 :: b4 :: b5 :: b6 :: b7 :: rest =>
      (bytesToVals rest).map (fun vs => decVal8 [b0, b1, b2, b3, b4, b5, b6, b7] :: vs)
  | _ => none

/-! ### urlsafe base64 ('=' is ASCII 61) -/

/-- The urlsafe base64 alphabet as ASCII codes: `A-Z a-z 0-9 - _`. -/
def alphaByte (s : Nat) : Nat :=
  if s < 26 then 65 + s
  else if s < 52 then 97 + (s - 26)
  else if s < 62 then 48 + (s - 52)
  else if s = 62 then 45
  else 95

/-- Inverse alphabet lookup. -/
def b64idx (b : Nat) : Option Nat :=
  if 65 ≤ b ∧ b ≤ 90 then some (b - 65)
  else if 97 ≤ b ∧ b ≤ 122 then some (26 + (b - 97))
  else if 48 ≤ b ∧ b ≤ 57 then some (52 + (b - 48))
  else if b = 45 then some 62
  else if b = 95 then some 63
  else none

/-- Python `urlsafe_b64encode` on a byte string. -/
def b64e : List Nat → List Nat
  | [] => []
  | [a] => [alphaByte (a / 4), alphaByte (a % 4 * 16), 61, 61]
  | [a, b] => [alphaByte (a / 4), alphaByte (a % 4 * 16 + b / 16), alphaByte (b % 16 * 4), 61]
  | a :: b :: c :: rest =>
      alphaByte (a / 4) :: alphaByte (a % 4 * 16 + b / 16) ::
      alphaByte (b % 16 * 4 + c / 64) :: alphaByte (c % 64) :: b64e rest

/-- Decode one 4-character base64 block. -/
def b64dChunk (w x y z : Nat) : Option (List Nat) :=
  if y = 61 then
    match b64idx w, b64idx x with
    | some s1, some s2 => some [s1 * 4 + s2 / 16]
    | _, _ => none
  else if z = 61 then
    match b64idx w, b64idx x, b64idx y with
    | some s1, some s2, some s3 => some [s1 * 4 + s2 / 16, s2 % 16 * 16 + s3 / 4]
    | _, _, _ => none
  else
    match b64idx w, b64idx x, b64idx y, b64idx z with
    | some s1, some s2, some s3, some s4 =>
        some [s1 * 4 + s2 / 16, s2 % 16 * 16 + s3 / 4, s3 % 4 * 64 + s4]
    | _, _, _, _ => none

/-- Python `urlsafe_b64decode` on a byte string. -/
def b64d : List Nat → Option (List Nat)
  | [] => some []
  | w :: x :: y :: z :: rest =>
      match b64dChunk w x y z, b64d rest with
      | some bs, some more => some (bs ++ more)
      | _, _ => none
  | _ => none

/-! ### decimal rendering and parsing for the header dimensions -/

/-- ASCII code of a decimal digit. -/
def digByte (d : Nat) : Nat := 48 + d

/-- Decimal digits of `n`, most significant first (`'{0:d}'.format`). -/
def natDigs (n : Nat) : List Nat :=
  if _h : n < 10 then [digByte n]
  else natDigs (n / 10) ++ [digByte (n % 10)]
termination_by n
decreasing_by exact Nat.div_lt_self (by omega) (by omega)

/-- Value of one ASCII digit. -/
def digVal (b : Nat) : Option Nat :=
  if 48 ≤ b ∧ b ≤ 57 then some (b - 48) else none

def decToNatAux : List Nat → Nat → Option Nat
  | [], acc => some acc
  | b :: bs, acc =>
      match digVal b with
      | some d => decToNatAux bs (acc * 10 + d)
      | none => none

/-- Python `int(...)` on a decimal token. -/
def decToNat (bs : List Nat) : Option Nat :=
  if bs = [] then none else decToNatAux bs 0

/-! ### strings, whitespace splitting, readline -/

/-- The ASCII bytes of a string (all strings in play are ASCII). -/
def asciiBytes (s : String) : List Nat := s.data.map Char.toNat

/-- Whitespace for `str.split()`. -/
def isWsByte (b : Nat) : Bool := b == 32 || b == 9 || b == 10 || b == 13

def wsSplitAux : List Nat → List Nat → List (List Nat)
  | [], cur => if cur = [] then [] else [cur.reverse]
  | b :: bs, cur =>
      if isWsByte b then
        if cur = [] then wsSplitAux bs [] else cur.reverse :: wsSplitAux bs []
      else wsSplitAux bs (b :: cur)

/-- Python `str.split()` with no arguments: split on whitespace runs, dropping
empty pieces. -/
def wsSplit (bs : List Nat) : List (List Nat) := wsSplitAux bs []

/-- Python `fh.readline()`: everything up to and including the first newline
(byte 10), and the remainder of the stream. -/
def readLine : List Nat → List Nat × List Nat
  | [] => ([], [])
  | b :: bs =>
      if b = 10 then ([10], bs)
      else
        let p := readLine bs
        (b :: p.1, p.2)

/-- The header `b'{0:s} {1:d} {2:d}\n'.format(arr.dtype, *arr.shape)`:
dtype token, space, rows, space, cols, newline. -/
def mkHeaderLine (dtok : List Nat) (r c : Nat) : List Nat :=
  dtok ++ 32 :: natDigs r ++ 32 :: natDigs c ++ [10]

/-- numpy `frombuffer(bs, dtype=tok)`.  The model represents the 8-byte
integer dtype `int64`; any other dtype token is outside the model. -/
def frombuffer (bs : List Nat) (tok : List Nat) : Option (List Int) :=
  if tok = asciiBytes "int64" then bytesToVals bs else none

/-- Build a 2-D array from a list of equal-length rows: the behaviour of
`loadtxt` on a rectangular table and of `numpy.array` on a list of
equal-length 1-D float64 rows (both external codecs). -/
def arrOfRows (dt : String) (recs : List (List Int)) : Option Arr :=
  match recs with
  | [] => none
  | r0 :: _ =>
      if recs.all (fun r => r.length == r0.length) then
        some ⟨recs.length, r0.length, dt, recs.flatten⟩
      else none

/-! ### on-disk content and the file system -/

/-- On-disk content, one constructor per encoding family.  Formats whose
layout the source builds by hand are structural (`bytes`, `csvD`,
`recsD`); self-describing formats written by external black-box codecs
store the array they encode; `gz` is the lossless gzip compression layer
around an inner content. -/
inductive FileD
  | bytes (bs : List Nat)
  | csvD (recs : List (List Int))
  | jsonD (a : Arr)
  | pickled (a : Arr)
  | npyD (a : Arr)
  | npzD (entries : List (String × Arr))
  | pngD (a : Arr)
  | matD (entries : List (String × Arr))
  | recsD (recs : List (List Int))
  | gz (inner : FileD)
deriving DecidableEq

/-- Python `os.path.getsize`: a size measure per content kind.  Byte formats
report their byte count; the black-box container formats are measured by
their payload (the exact figure is codec-internal and not claimed). -/
def fdSize : FileD → Nat
  | .bytes bs => bs.length
  | .csvD recs => recs.length + (recs.map List.length).sum
  | .jsonD a => a.data.length
  | .pickled a => a.data.length
  | .npyD a => a.data.length
  | .npzD es => (es.map (fun e => e.2.data.length)).sum
  | .pngD a => a.data.length
  | .matD es => (es.map (fun e => e.2.data.length)).sum
  | .recsD recs => (recs.map List.length).sum
  | .gz inner => fdSize inner

/-- The file system: a partial map from paths to contents. -/
def FS : Type := String → Option FileD

def fsGet (fs : FS) (p : String) : Option FileD := fs p

/-- Creating or overwriting a file (what a completed `save` leaves). -/
def fsSet (fs : FS) (p : String) (d : FileD) : FS :=
  fun q => if q = p then some d else fs q

/-- Python `os.remove`. -/
def fsRemove (fs : FS) (p : String) : FS :=
  fun q => if q = p then none else fs q

def getsize (fs : FS) (p : String) : Option Nat := (fsGet fs p).map fdSize

/-! ### I/O effects of a save call -/

/-- Observable I/O effects of a `save` call, in program order. -/
inductive IOEvent
  | openEv
  | writeEv
  | flushEv
  | fsyncEv
deriving DecidableEq

/-- Python `sync(fh)`: `fh.flush()` then `os.fsync(fh.fileno())` — an OS-level
sync of the written file, not just an application-buffer flush. -/
def sync : List IOEvent := [.flushEv, .fsyncEv]

/-- Modelled from the spec: `json_tricks.dump` is an external codec
(black box); the spec makes durability mandatory and the source passes
`force_flush=True`, which flushes and syncs the file so that buffering
does not influence timings. -/
def jt_dump_events (force_flush : Bool) : List IOEvent :=
  [.writeEv] ++ (if force_flush then sync else [])

/-! ### the adapter contract -/

/-- One concrete storage method: its class name (`__str__` returns the
class name), what its `save` writes at the path, the ordered I/O effects
`save` performs, what its `load` returns for a given content, and the
class of arrays it declares support for. -/
structure Adapter where
  name : String
  encode : Arr → FileD
  saveEvents : Arr → List IOEvent
  decode : FileD → Option Arr
  support : Arr → Bool

/-- Well-formed 2-D data: row-major buffer of exactly rows × cols. -/
def wfArr (a : Arr) : Bool := a.data.length == a.rows * a.cols

/-- Non-empty in both dimensions (the spec's precondition for `save`). -/
def nonemptyArr (a : Arr) : Bool := 1 ≤ a.rows && 1 ≤ a.cols

/-- All values representable in the modelled 8-byte element type. -/
def int64Range (a : Arr) : Bool :=
  a.data.all (fun v => -9223372036854775808 ≤ v && v < 9223372036854775808)

/-! ### the adapter catalog (classes of `methods.py`, enabled METHODS) -/

namespace Csv

/-- Python `savetxt(fh, arr, delimiter=',')` writes one text line per row; the
number-to-text codec is a black box that renders each value exactly (the
source's `%.18e` format round-trips float64), so the table keeps the
values. -/
def encode (a : Arr) : FileD := .csvD (takeRows a.rows a.cols a.data)

/-- Python `loadtxt(fh, delimiter=',')` parses the table back into a 2-D array. -/
def decode : FileD → Option Arr
  | .csvD recs => arrOfRows "float64" recs
  | _ => none

/-- Python `open(pth, 'w+')`, `savetxt`, `sync(fh)`. -/
def saveEvents (_ : Arr) : List IOEvent := [.openEv, .writeEv] ++ sync

def support (a : Arr) : Bool := wfArr a && nonemptyArr a

def adapter : Adapter := ⟨"Csv", encode, saveEvents, decode, support⟩

end Csv

namespace CsvGzip

/-- Same as `Csv.save` but through `gzip.open`. -/
def encode (a : Arr) : FileD := .gz (.csvD (takeRows a.rows a.cols a.data))

def decode : FileD → Option Arr
  | .gz (.csvD recs) => arrOfRows "float64" recs
  | _ => none

def saveEvents (_ : Arr) : List IOEvent := [.openEv, .writeEv] ++ sync

def support (a : Arr) : Bool := wfArr a && nonemptyArr a

def adapter : Adapter := ⟨"CsvGzip", encode, saveEvents, decode, support⟩

end CsvGzip

namespace JSON

/-- Python `jt_dump(arr, pth, force_flush=True)` (black-box codec, array kept). -/
def encode (a : Arr) : FileD := .jsonD a

/-- Python `jt_load` auto-detects plain or gzip-compressed JSON (black box). -/
def jt_load : FileD → Option Arr
  | .jsonD a => some a
  | .gz (.jsonD a) => some a
  | _ => none

def decode : FileD → Option Arr := jt_load

def saveEvents (_ : Arr) : List IOEvent := jt_dump_events true

def support (a : Arr) : Bool := wfArr a

def adapter : Adapter := ⟨"JSON", encode, saveEvents, decode, support⟩

end JSON

namespace JSONGzip

/-- Python `jt_dump(arr, pth, compression=True, force_flush=True)`. -/
def encode (a : Arr) : FileD := .gz (.jsonD a)

def decode : FileD → Option Arr := JSON.jt_load

def saveEvents (_ : Arr) : List IOEvent := jt_dump_events true

def support (a : Arr) : Bool := wfArr a

def adapter : Adapter := ⟨"JSONGzip", encode, saveEvents, decode, support⟩

end JSONGzip

namespace Binary

/-- Python `fh.write(b'{0:s} {1:d} {2:d}\n'.format(arr.dtype, *arr.shape))`
followed by `fh.write(arr.data)`. -/
def encode (a : Arr) : FileD :=
  .bytes (mkHeaderLine (asciiBytes a.dtypeName) a.rows a.cols ++ valsToBytes a.data)

/-- Python `dtype, w, h = str(fh.readline()).split()` then
`frombuffer(fh.read(), dtype=dtype).reshape((int(w), int(h)))`
(`reshape` fails unless the element count matches). -/
def decodeBytes (bs : List Nat) : Option Arr :=
  let line := (readLine bs).1
  let rest := (readLine bs).2
  match wsSplit line with
  | [dtok, wtok, htok] =>
      match decToNat wtok, decToNat htok, frombuffer rest dtok with
      | some w, some h, some vals =>
          if vals.length == w * h then some ⟨w, h, "int64", vals⟩ else none
      | _, _, _ => none
  | _ => none

def decode : FileD → Option Arr
  | .bytes bs => decodeBytes bs
  | _ => none

/-- Python `open(pth, 'wb+')`, two writes, `sync(fh)`. -/
def saveEvents (_ : Arr) : List IOEvent := [.openEv, .writeEv, .writeEv] ++ sync

def support (a : Arr) : Bool := wfArr a && a.dtypeName == "int64" && int64Range a

def adapter : Adapter := ⟨"Binary", encode, saveEvents, decode, support⟩

end Binary

namespace BinaryGzip

/-- Same bytes as `Binary.save` but through `gzip.open`. -/
def encode (a : Arr) : FileD :=
  .gz (.bytes (mkHeaderLine (asciiBytes a.dtypeName) a.rows a.cols ++ valsToBytes a.data))

def decode : FileD → Option Arr
  | .gz (.bytes bs) => Binary.decodeBytes bs
  | _ => none

def saveEvents (_ : Arr) : List IOEvent := [.openEv, .writeEv, .writeEv] ++ sync

def support (a : Arr) : Bool := wfArr a && a.dtypeName == "int64" && int64Range a

def adapter : Adapter := ⟨"BinaryGzip", encode, saveEvents, decode, support⟩

end BinaryGzip

namespace Pickle

/-- Python `pkl_dump(arr, fh)` (black-box codec, array kept). -/
def encode (a : Arr) : FileD := .pickled a

def decode : FileD → Option Arr
  | .pickled a => some a
  | _ => none

def saveEvents (_ : Arr) : List IOEvent := [.openEv, .writeEv] ++ sync

def support (a : Arr) : Bool := wfArr a

def adapter : Adapter := ⟨"Pickle", encode, saveEvents, decode, support⟩

end Pickle

namespace PickleGzip

def encode (a : Arr) : FileD := .gz (.pickled a)

def decode : FileD → Option Arr
  | .gz (.pickled a) => some a
  | _ => none

def saveEvents (_ : Arr) : List IOEvent := [.openEv, .writeEv] ++ sync

def support (a : Arr) : Bool := wfArr a

def adapter : Adapter := ⟨"PickleGzip", encode, saveEvents, decode, support⟩

end PickleGzip

namespace NPY

/-- Python `np_save(fh, arr, allow_pickle=False)` (black-box self-describing). -/
def encode (a : Arr) : FileD := .npyD a

def decode : FileD → Option Arr
  | .npyD a => some a
  | _ => none

def saveEvents (_ : Arr) : List IOEvent := [.openEv, .writeEv] ++ sync

def support (a : Arr) : Bool := wfArr a

def adapter : Adapter := ⟨"NPY", encode, saveEvents, decode, support⟩

end NPY

namespace NPYCompr

/-- Python `savez_compressed(fh, data=arr)`: an npz archive with one entry named
`data`. -/
def encode (a : Arr) : FileD := .npzD [("data", a)]

/-- Python `np_load(pth)['data']`. -/
def decode : FileD → Option Arr
  | .npzD es => (es.find? (fun e => e.1 == "data")).map (fun e => e.2)
  | _ => none

def saveEvents (_ : Arr) : List IOEvent := [.openEv, .writeEv] ++ sync

def support (a : Arr) : Bool := wfArr a

def adapter : Adapter := ⟨"NPYCompr", encode, saveEvents, decode, support⟩

end NPYCompr

namespace PNG

/-- Python `save_array_img(arr, pth, img_format='png')` (black-box lossless
image codec; the sync is issued on a second handle of the same path). -/
def encode (a : Arr) : FileD := .pngD a

def decode : FileD → Option Arr
  | .pngD a => some a
  | _ => none

def saveEvents (_ : Arr) : List IOEvent := [.openEv, .writeEv] ++ sync

def support (a : Arr) : Bool := wfArr a

def adapter : Adapter := ⟨"PNG", encode, saveEvents, decode, support⟩

end PNG

namespace b64Enc

/-- Header line as in `Binary`, then `urlsafe_b64encode(arr.data)`. -/
def encode (a : Arr) : FileD :=
  .bytes (mkHeaderLine (asciiBytes a.dtypeName) a.rows a.cols ++ b64e (valsToBytes a.data))

/-- Python `dtype, w, h = str(fh.readline()).split()` then
`frombuffer(urlsafe_b64decode(fh.read()), dtype=dtype).reshape((int(w), int(h)))`. -/
def decodeBytes (bs : List Nat) : Option Arr :=
  let line := (readLine bs).1
  let rest := (readLine bs).2
  match wsSplit line with
  | [dtok, wtok, htok] =>
      match decToNat wtok, decToNat htok, (b64d rest).bind (fun p => frombuffer p dtok) with
      | some w, some h, some vals =>
          if vals.length == w * h then some ⟨w, h, "int64", vals⟩ else none
      | _, _, _ => none
  | _ => none

def decode : FileD → Option Arr
  | .bytes bs => decodeBytes bs
  | _ => none

def saveEvents (_ : Arr) : List IOEvent := [.openEv, .writeEv, .writeEv] ++ sync

def support (a : Arr) : Bool := wfArr a && a.dtypeName == "int64" && int64Range a

def adapter : Adapter := ⟨"b64Enc", encode, saveEvents, decode, support⟩

end b64Enc

namespace FortUnf

/-- One unformatted record per row, written with `writeReals(prec='d')`;
no shape header is written (the source assumes float64). -/
def encode (a : Arr) : FileD := .recsD (takeRows a.rows a.cols a.data)

/-- Read records until `readReals` raises `IOError` at end-of-file, then
`numpy.array` of the rows read: the row count is the number of records. -/
def decode : FileD → Option Arr
  | .recsD recs => arrOfRows "float64" recs
  | _ => none

/-- Python `FortranFile(pth, mode='wb+')`, one `writeReals` per row, `sync(fh)`. -/
def saveEvents (a : Arr) : List IOEvent :=
  [.openEv] ++ List.replicate a.rows .writeEv ++ sync

def support (a : Arr) : Bool := wfArr a && nonemptyArr a && a.dtypeName == "float64"

def adapter : Adapter := ⟨"FortUnf", encode, saveEvents, decode, support⟩

end FortUnf

namespace MatFile

/-- Python `savemat(fh, dict(data=arr))`: a .mat container with one variable
named `data`. -/
def encode (a : Arr) : FileD := .matD [("data", a)]

/-- Python `loadmat(fh)['data']`. -/
def decode : FileD → Option Arr
  | .matD es => (es.find? (fun e => e.1 == "data")).map (fun e => e.2)
  | _ => none

def saveEvents (_ : Arr) : List IOEvent := [.openEv, .writeEv] ++ sync

def support (a : Arr) : Bool := wfArr a

def adapter : Adapter := ⟨"MatFile", encode, saveEvents, decode, support⟩

end MatFile

/-- The enabled catalog (the final `METHODS` assignment in the source;
HTML, Excel and Stata are not enabled). -/
def METHODS : List Adapter :=
  [Csv.adapter, CsvGzip.adapter, JSON.adapter, JSONGzip.adapter,
   b64Enc.adapter, Pickle.adapter, PickleGzip.adapter, Binary.adapter,
   BinaryGzip.adapter, NPY.adapter, NPYCompr.adapter, PNG.adapter,
   FortUnf.adapter, MatFile.adapter]

/-! ### the shared timing/verification wrapper (`TimeArrStorage`) -/

/-- The per-instance timing state of `TimeArrStorage`. -/
structure TimeArrStorage where
  save_time : Option Int
  load_time : Option Int
  storage_space : Option Nat
deriving DecidableEq

/-- Python `__init__(self, reps=100)`: `reps` is accepted but never stored or
read; all timing state starts unset. -/
def TimeArrStorage.init (reps : Nat) : TimeArrStorage :=
  ⟨none, none, none⟩

/-- Python `time_save`: `t0 = time(); self.save(arr, pth);
self.save_time = time() - t0; self.storage_space = getsize(pth)`.
The two clock readings around the save are `t0` and `t1`. -/
def time_save (m : Adapter) (st : TimeArrStorage) (arr : Arr) (pth : String)
    (fs : FS) (t0 t1 : Int) : TimeArrStorage × FS × List IOEvent :=
  let fs' := fsSet fs pth (m.encode arr)
  (⟨some (t1 - t0), st.load_time, getsize fs' pth⟩, fs', m.saveEvents arr)

/-- The statements `time_load` executes, in program order. -/
inductive LoadEvent
  | loadEv (pth : String)
  | sumEv
  | loadTimeEv
  | removeEv (pth : String)
  | assertFailEv (msg : String)
  | returnEv
deriving DecidableEq

/-- Python `time_load`: `t0 = time(); arr = self.load(pth); sm = arr.sum();
self.load_time = time() - t0; remove(pth);
assert array_equal(arr, ref_arr), 'load failed for {0:}'.format(self);
return sm`.  A missing path or a codec failure propagates (first two
branches); otherwise the sum is taken, the elapsed time recorded, the
path removed, and only then the verification assert runs.  The event
list records the order these statements execute. -/
def time_load (m : Adapter) (st : TimeArrStorage) (ref_arr : Arr) (pth : String)
    (fs : FS) (t0 t1 : Int) :
    TimeArrStorage × FS × Except String Int × List LoadEvent :=
  match fsGet fs pth with
  | none => (st, fs, Except.error "IOError", [LoadEvent.loadEv pth])
  | some fd =>
    match m.decode fd with
    | none => (st, fs, Except.error "codec error", [LoadEvent.loadEv pth])
    | some arr =>
      let sm := arrSum arr
      let st' : TimeArrStorage := ⟨st.save_time, some (t1 - t0), st.storage_space⟩
      let fs' := fsRemove fs pth
      if array_equal arr ref_arr then
        (st', fs', Except.ok sm,
          [LoadEvent.loadEv pth, LoadEvent.sumEv, LoadEvent.loadTimeEv,
           LoadEvent.removeEv pth, LoadEvent.returnEv])
      else
        (st', fs', Except.error ("load failed for " ++ m.name),
          [LoadEvent.loadEv pth, LoadEvent.sumEv, LoadEvent.loadTimeEv,
           LoadEvent.removeEv pth,
           LoadEvent.assertFailEv ("load failed for " ++ m.name)])

/-! ## Lemma layer -/

theorem array_equal_refl (a : Arr) : array_equal a a = true := by
  simp [array_equal]

theorem array_equal_mk (a : Arr) (dt : String) :
    array_equal ⟨a.rows, a.cols, dt, a.data⟩ a = true := by
  simp [array_equal]

/-! ### int64 byte codec -/

theorem decVal8_encVal8 (v : Int)
    (h1 : -9223372036854775808 ≤ v) (h2 : v < 9223372036854775808) :
    decVal8 (encVal8 v) = v := by
  have hm : 0 ≤ v % 18446744073709551616 := Int.emod_nonneg v (by norm_num)
  have hM : v % 18446744073709551616 < 18446744073709551616 :=
    Int.emod_lt_of_pos v (by norm_num)
  have hn : ((v % 18446744073709551616).toNat : Int) = v % 18446744073709551616 :=
    Int.toNat_of_nonneg hm
  simp only [encVal8, decVal8, leVal, mul_zero, add_zero]
  set n := (v % 18446744073709551616).toNat with hset
  have hn64 : n < 18446744073709551616 := by omega
  have hrec : n % 256 + 256 * (n / 256 % 256 + 256 * (n / 65536 % 256 +
      256 * (n / 16777216 % 256 + 256 * (n / 4294967296 % 256 +
      256 * (n / 1099511627776 % 256 + 256 * (n / 281474976710656 % 256 +
      256 * (n / 72057594037927936 % 256))))))) = n := by omega
  rw [hrec]
  split <;> omega

theorem bytesToVals_valsToBytes :
    ∀ vs : List Int,
      (∀ v ∈ vs, -9223372036854775808 ≤ v ∧ v < 9223372036854775808) →
      bytesToVals (valsToBytes vs) = some vs := by
  intro vs
  induction vs with
  | nil => intro _; rfl
  | cons v vs ih =>
    intro h
    have hv := h v (List.mem_cons_self v vs)
    have hrt := decVal8_encVal8 v hv.1 hv.2
    have hb := ih (fun w hw => h w (List.mem_cons_of_mem v hw))
    simp only [encVal8] at hrt
    simp only [valsToBytes, encVal8, List.cons_append, List.nil_append,
      bytesToVals, hrt]
    simp [hb]

theorem valsToBytes_lt (vs : List Int) : ∀ x ∈ valsToBytes vs, x < 256 := by
  induction vs with
  | nil => intro x hx; simp [valsToBytes] at hx
  | cons v vs ih =>
    intro x hx
    simp only [valsToBytes, List.mem_append] at hx
    rcases hx with hx | hx
    · simp only [encVal8, List.mem_cons, List.not_mem_nil, or_false] at hx
      rcases hx with rfl | rfl | rfl | rfl | rfl | rfl | rfl | rfl <;> omega
    · exact ih x hx

/-! ### base64 -/

theorem b64idx_alphaByte : ∀ s, s < 64 → b64idx (alphaByte s) = some s := by decide

theorem alphaByte_ne_61 : ∀ s, s < 64 → alphaByte s ≠ 61 := by decide

theorem b64d_b64e_aux :
    ∀ (k : Nat) (bs : List Nat), bs.length ≤ k → (∀ x ∈ bs, x < 256) →
      b64d (b64e bs) = some bs := by
  intro k
  induction k with
  | zero =>
    intro bs hl _
    have hnil : bs = [] := List.eq_nil_of_length_eq_zero (Nat.le_zero.mp hl)
    subst hnil; rfl
  | succ k ih =>
    intro bs hl hb
    rcases bs with _ | ⟨a, _ | ⟨b, _ | ⟨c, rest⟩⟩⟩
    · rfl
    · have ha : a < 256 := hb a (by simp)
      have h1 : a / 4 < 64 := by omega
      have h2 : a % 4 * 16 < 64 := by omega
      simp [b64e, b64d, b64dChunk, b64idx_alphaByte _ h1, b64idx_alphaByte _ h2]
      omega
    · have ha : a < 256 := hb a (by simp)
      have hbb : b < 256 := hb b (by simp)
      have hy : alphaByte (b % 16 * 4) ≠ 61 := alphaByte_ne_61 _ (by omega)
      simp [b64e, b64d, b64dChunk, hy,
        b64idx_alphaByte _ (show a / 4 < 64 by omega),
        b64idx_alphaByte _ (show a % 4 * 16 + b / 16 < 64 by omega),
        b64idx_alphaByte _ (show b % 16 * 4 < 64 by omega)]
      omega
    · have ha : a < 256 := hb a (by simp)
      have hbb : b < 256 := hb b (by simp)
      have hc : c < 256 := hb c (by simp)
      have hy : alphaByte (b % 16 * 4 + c / 64) ≠ 61 := alphaByte_ne_61 _ (by omega)
      have hz : alphaByte (c % 64) ≠ 61 := alphaByte_ne_61 _ (by omega)
      have hrest : b64d (b64e rest) = some rest := by
        refine ih rest ?_ (fun x hx => hb x (by simp [hx]))
        simp only [List.length_cons] at hl
        omega
      simp [b64e, b64d, b64dChunk, hy, hz, hrest,
        b64idx_alphaByte _ (show a / 4 < 64 by omega),
        b64idx_alphaByte _ (show a % 4 * 16 + b / 16 < 64 by omega),
        b64idx_alphaByte _ (show b % 16 * 4 + c / 64 < 64 by omega),
        b64idx_alphaByte _ (show c % 64 < 64 by omega)]
      omega

theorem b64d_b64e (bs : List Nat) (hb : ∀ x ∈ bs, x < 256) :
    b64d (b64e bs) = some bs :=
  b64d_b64e_aux bs.length bs le_rfl hb

/-! ### decimal round trip -/

theorem natDigs_digits : ∀ n : Nat, ∀ b ∈ natDigs n, 48 ≤ b ∧ b ≤ 57 := by
  intro n
  induction n using Nat.strong_induction_on with
  | _ n ih =>
    intro b hb
    by_cases hn : n < 10
    · rw [natDigs, dif_pos hn] at hb
      simp only [List.mem_singleton, digByte] at hb
      omega
    · rw [natDigs, dif_neg hn] at hb
      rcases List.mem_append.mp hb with h | h
      · exact ih (n / 10) (Nat.div_lt_self (by omega) (by omega)) b h
      · simp only [List.mem_singleton, digByte] at h
        omega

theorem natDigs_ne_nil (n : Nat) : natDigs n ≠ [] := by
  rw [natDigs]
  split <;> simp

theorem decToNatAux_append :
    ∀ xs ys : List Nat, ∀ acc : Nat,
      decToNatAux (xs ++ ys) acc =
        (decToNatAux xs acc).bind (fun a => decToNatAux ys a) := by
  intro xs
  induction xs with
  | nil => intro ys acc; rfl
  | cons b bs ih =>
    intro ys acc
    simp only [List.cons_append, decToNatAux]
    cases hdv : digVal b with
    | none => rfl
    | some d => exact ih ys _

theorem digVal_digByte (d : Nat) (hd : d < 10) : digVal (digByte d) = some d := by
  rw [digVal, digByte, if_pos (by omega)]
  congr 1
  omega

theorem decToNatAux_natDigs :
    ∀ n acc : Nat, decToNatAux (natDigs n) acc =
      some (acc * 10 ^ (natDigs n).length + n) := by
  intro n
  induction n using Nat.strong_induction_on with
  | _ n ih =>
    intro acc
    by_cases hn : n < 10
    · rw [natDigs, dif_pos hn]
      simp [decToNatAux, digVal_digByte n hn]
    · rw [natDigs, dif_neg hn, decToNatAux_append,
        ih (n / 10) (Nat.div_lt_self (by omega) (by omega)) acc]
      simp only [Option.some_bind, decToNatAux, digVal_digByte (n % 10) (by omega),
        List.length_append, List.length_singleton]
      congr 1
      rw [pow_succ, ← mul_assoc]
      generalize acc * 10 ^ (natDigs (n / 10)).length = q
      omega

theorem decToNat_natDigs (n : Nat) : decToNat (natDigs n) = some n := by
  rw [decToNat, if_neg (natDigs_ne_nil n), decToNatAux_natDigs]
  simp

/-! ### readline and whitespace split -/

theorem readLine_nl (bs : List Nat) : readLine (10 :: bs) = ([10], bs) := by
  simp [readLine]

theorem readLine_cons (x : Nat) (hx : x ≠ 10) (bs : List Nat) :
    readLine (x :: bs) = (x :: (readLine bs).1, (readLine bs).2) := by
  simp [readLine, hx]

theorem readLine_skip :
    ∀ (tok rest : List Nat), (∀ b ∈ tok, b ≠ 10) →
      readLine (tok ++ rest) = (tok ++ (readLine rest).1, (readLine rest).2) := by
  intro tok
  induction tok with
  | nil => intro rest _; simp
  | cons x t ih =>
    intro rest h
    have hx : x ≠ 10 := h x (by simp)
    simp only [List.cons_append, readLine_cons x hx]
    rw [ih rest (fun b hb => h b (by simp [hb]))]

/-- Reading the first line of a well-formed header followed by an
arbitrary payload. -/
theorem readLine_header (dtok tr tc payload : List Nat)
    (hd : ∀ b ∈ dtok, b ≠ 10) (hr : ∀ b ∈ tr, b ≠ 10) (hc : ∀ b ∈ tc, b ≠ 10) :
    readLine (dtok ++ 32 :: (tr ++ 32 :: (tc ++ 10 :: payload))) =
      (dtok ++ 32 :: (tr ++ 32 :: (tc ++ [10])), payload) := by
  rw [readLine_skip dtok _ hd, readLine_cons 32 (by omega),
    readLine_skip tr _ hr, readLine_cons 32 (by omega),
    readLine_skip tc _ hc, readLine_nl]

theorem wsSplitAux_noWs :
    ∀ (tok bs cur : List Nat), (∀ b ∈ tok, isWsByte b = false) →
      wsSplitAux (tok ++ bs) cur = wsSplitAux bs (tok.reverse ++ cur) := by
  intro tok
  induction tok with
  | nil => intro bs cur _; simp
  | cons t ts ih =>
    intro bs cur h
    have ht : isWsByte t = false := h t (by simp)
    rw [List.cons_append,
      show wsSplitAux (t :: (ts ++ bs)) cur = wsSplitAux (ts ++ bs) (t :: cur) by
        simp [wsSplitAux, ht],
      ih bs (t :: cur) (fun b hb => h b (by simp [hb]))]
    simp

theorem wsSplitAux_ws (bs cur : List Nat) (b : Nat) (hb : isWsByte b = true) :
    wsSplitAux (b :: bs) cur =
      if cur = [] then wsSplitAux bs [] else cur.reverse :: wsSplitAux bs [] := by
  simp [wsSplitAux, hb]

theorem wsSplit_three (t1 t2 t3 : List Nat)
    (h1 : t1 ≠ []) (h2 : t2 ≠ []) (h3 : t3 ≠ [])
    (w1 : ∀ b ∈ t1, isWsByte b = false) (w2 : ∀ b ∈ t2, isWsByte b = false)
    (w3 : ∀ b ∈ t3, isWsByte b = false) :
    wsSplit (t1 ++ 32 :: (t2 ++ 32 :: (t3 ++ [10]))) = [t1, t2, t3] := by
  rw [wsSplit,
    wsSplitAux_noWs t1 (32 :: (t2 ++ 32 :: (t3 ++ [10]))) [] w1,
    wsSplitAux_ws (t2 ++ 32 :: (t3 ++ [10])) (t1.reverse ++ []) 32 (by decide),
    if_neg (by simp [h1]),
    wsSplitAux_noWs t2 (32 :: (t3 ++ [10])) [] w2,
    wsSplitAux_ws (t3 ++ [10]) (t2.reverse ++ []) 32 (by decide),
    if_neg (by simp [h2]),
    wsSplitAux_noWs t3 [10] [] w3,
    wsSplitAux_ws [] (t3.reverse ++ []) 10 (by decide),
    if_neg (by simp [h3])]
  simp [wsSplitAux]

/-! ### row chunking -/

theorem takeRows_length : ∀ (r c : Nat) (xs : List Int),
    (takeRows r c xs).length = r := by
  intro r
  induction r with
  | zero => intro c xs; rfl
  | succ r ih => intro c xs; simp [takeRows, ih]

theorem takeRows_flatten : ∀ (r c : Nat) (xs : List Int),
    xs.length = r * c → (takeRows r c xs).flatten = xs := by
  intro r
  induction r with
  | zero =>
    intro c xs h
    simp only [Nat.zero_mul] at h
    simp [takeRows, (List.eq_nil_of_length_eq_zero h).symm]
  | succ r ih =>
    intro c xs h
    rw [Nat.succ_mul] at h
    simp only [takeRows, List.flatten_cons]
    rw [ih c (xs.drop c) (by simp [List.length_drop]; omega)]
    exact List.take_append_drop c xs

theorem takeRows_mem_length : ∀ (r c : Nat) (xs : List Int),
    xs.length = r * c → ∀ row ∈ takeRows r c xs, row.length = c := by
  intro r
  induction r with
  | zero => intro c xs _ row hrow; simp [takeRows] at hrow
  | succ r ih =>
    intro c xs h row hrow
    rw [Nat.succ_mul] at h
    rcases List.mem_cons.mp hrow with rfl | hrow
    · simp [List.length_take]
      omega
    · exact ih c (xs.drop c) (by simp [List.length_drop]; omega) row hrow

theorem arrOfRows_takeRows (dt : String) (a : Arr)
    (hwf : a.data.length = a.rows * a.cols) (hr : 1 ≤ a.rows) :
    arrOfRows dt (takeRows a.rows a.cols a.data) =
      some ⟨a.rows, a.cols, dt, a.data⟩ := by
  obtain ⟨r, hrr⟩ : ∃ r, a.rows = r + 1 := ⟨a.rows - 1, by omega⟩
  rw [hrr] at hwf ⊢
  have hall := takeRows_mem_length (r + 1) a.cols a.data hwf
  have hflat := takeRows_flatten (r + 1) a.cols a.data hwf
  have hlen := takeRows_length (r + 1) a.cols a.data
  simp only [takeRows] at hall hflat hlen ⊢
  have h0 : (a.data.take a.cols).length = a.cols :=
    hall _ (List.mem_cons_self _ _)
  rw [arrOfRows, if_pos]
  · simp only [Option.some.injEq, Arr.mk.injEq]
    exact ⟨hlen, h0, trivial, hflat⟩
  · rw [List.all_eq_true]
    intro row hrow
    simp [hall row hrow, h0]

/-! ### the raw-binary header round trip -/

theorem natDigs_ne_10 (n : Nat) : ∀ b ∈ natDigs n, b ≠ 10 := by
  intro b hb
  have := natDigs_digits n b hb
  omega

theorem natDigs_noWs (n : Nat) : ∀ b ∈ natDigs n, isWsByte b = false := by
  intro b hb
  have := natDigs_digits n b hb
  simp only [isWsByte, Bool.or_eq_false_iff, beq_eq_false_iff_ne]
  omega

/-- The saved byte stream of `Binary.save`, reassociated into the form the
header-reading lemmas consume. -/
theorem headerBytes_assoc (dtok : List Nat) (r c : Nat) (payload : List Nat) :
    mkHeaderLine dtok r c ++ payload =
      dtok ++ 32 :: (natDigs r ++ 32 :: (natDigs c ++ 10 :: payload)) := by
  simp [mkHeaderLine]

theorem binary_decodeBytes_roundtrip (a : Arr)
    (hwf : a.data.length = a.rows * a.cols)
    (hrange : ∀ v ∈ a.data, -9223372036854775808 ≤ v ∧ v < 9223372036854775808) :
    Binary.decodeBytes (mkHeaderLine (asciiBytes "int64") a.rows a.cols ++ valsToBytes a.data) =
      some ⟨a.rows, a.cols, "int64", a.data⟩ := by
  rw [headerBytes_assoc]
  simp only [Binary.decodeBytes]
  rw [readLine_header _ _ _ _ (by decide) (natDigs_ne_10 a.rows) (natDigs_ne_10 a.cols)]
  simp only
  rw [wsSplit_three _ _ _ (by decide) (natDigs_ne_nil a.rows) (natDigs_ne_nil a.cols)
    (by decide) (natDigs_noWs a.rows) (natDigs_noWs a.cols)]
  simp only [decToNat_natDigs]
  rw [frombuffer, if_pos rfl, bytesToVals_valsToBytes a.data hrange]
  simp [hwf]

theorem b64_decodeBytes_roundtrip (a : Arr)
    (hwf : a.data.length = a.rows * a.cols)
    (hrange : ∀ v ∈ a.data, -9223372036854775808 ≤ v ∧ v < 9223372036854775808) :
    b64Enc.decodeBytes
        (mkHeaderLine (asciiBytes "int64") a.rows a.cols ++ b64e (valsToBytes a.data)) =
      some ⟨a.rows, a.cols, "int64", a.data⟩ := by
  rw [headerBytes_assoc]
  simp only [b64Enc.decodeBytes]
  rw [readLine_header _ _ _ _ (by decide) (natDigs_ne_10 a.rows) (natDigs_ne_10 a.cols)]
  simp only
  rw [wsSplit_three _ _ _ (by decide) (natDigs_ne_nil a.rows) (natDigs_ne_nil a.cols)
    (by decide) (natDigs_noWs a.rows) (natDigs_noWs a.cols)]
  simp only [decToNat_natDigs]
  rw [b64d_b64e (valsToBytes a.data) (valsToBytes_lt a.data)]
  simp only [Option.some_bind]
  rw [frombuffer, if_pos rfl, bytesToVals_valsToBytes a.data hrange]
  simp [hwf]

/-! ### round trips of the individual adapters -/

/-- Unpacking the support predicate of the `Binary` family. -/
theorem binary_support_iff (a : Arr) :
    (wfArr a && a.dtypeName == "int64" && int64Range a) = true ↔
      (a.data.length = a.rows * a.cols ∧ a.dtypeName = "int64" ∧
       ∀ v ∈ a.data, -9223372036854775808 ≤ v ∧ v < 9223372036854775808) := by
  simp [wfArr, int64Range, List.all_eq_true, and_assoc, Bool.and_eq_true,
    beq_iff_eq, decide_eq_true_eq]

/-- Unpacking the support predicate of the text/record table adapters. -/
theorem table_support_iff (a : Arr) :
    (wfArr a && nonemptyArr a) = true ↔
      (a.data.length = a.rows * a.cols ∧ 1 ≤ a.rows ∧ 1 ≤ a.cols) := by
  simp [wfArr, nonemptyArr, and_assoc, Bool.and_eq_true, beq_iff_eq,
    decide_eq_true_eq]

theorem rt_Csv (a : Arr) (hs : Csv.adapter.support a = true) :
    ∃ b, Csv.adapter.decode (Csv.adapter.encode a) = some b ∧
      array_equal b a = true := by
  have h := (table_support_iff a).mp hs
  refine ⟨⟨a.rows, a.cols, "float64", a.data⟩, ?_, array_equal_mk a _⟩
  show Csv.decode (Csv.encode a) = _
  rw [Csv.encode, Csv.decode]
  exact arrOfRows_takeRows "float64" a h.1 h.2.1

theorem rt_CsvGzip (a : Arr) (hs : CsvGzip.adapter.support a = true) :
    ∃ b, CsvGzip.adapter.decode (CsvGzip.adapter.encode a) = some b ∧
      array_equal b a = true := by
  have h := (table_support_iff a).mp hs
  refine ⟨⟨a.rows, a.cols, "float64", a.data⟩, ?_, array_equal_mk a _⟩
  show CsvGzip.decode (CsvGzip.encode a) = _
  rw [CsvGzip.encode, CsvGzip.decode]
  exact arrOfRows_takeRows "float64" a h.1 h.2.1

theorem rt_JSON (a : Arr) :
    ∃ b, JSON.adapter.decode (JSON.adapter.encode a) = some b ∧
      array_equal b a = true :=
  ⟨a, rfl, array_equal_refl a⟩

theorem rt_JSONGzip (a : Arr) :
    ∃ b, JSONGzip.adapter.decode (JSONGzip.adapter.encode a) = some b ∧
      array_equal b a = true :=
  ⟨a, rfl, array_equal_refl a⟩

theorem rt_Pickle (a : Arr) :
    ∃ b, Pickle.adapter.decode (Pickle.adapter.encode a) = some b ∧
      array_equal b a = true :=
  ⟨a, rfl, array_equal_refl a⟩

theorem rt_PickleGzip (a : Arr) :
    ∃ b, PickleGzip.adapter.decode (PickleGzip.adapter.encode a) = some b ∧
      array_equal b a = true :=
  ⟨a, rfl, array_equal_refl a⟩

theorem rt_NPY (a : Arr) :
    ∃ b, NPY.adapter.decode (NPY.adapter.encode a) = some b ∧
      array_equal b a = true :=
  ⟨a, rfl, array_equal_refl a⟩

theorem rt_NPYCompr (a : Arr) :
    ∃ b, NPYCompr.adapter.decode (NPYCompr.adapter.encode a) = some b ∧
      array_equal b a = true := by
  refine ⟨a, ?_, array_equal_refl a⟩
  show NPYCompr.decode (NPYCompr.encode a) = some a
  simp [NPYCompr.decode, NPYCompr.encode]

theorem rt_PNG (a : Arr) :
    ∃ b, PNG.adapter.decode (PNG.adapter.encode a) = some b ∧
      array_equal b a = true :=
  ⟨a, rfl, array_equal_refl a⟩

theorem rt_MatFile (a : Arr) :
    ∃ b, MatFile.adapter.decode (MatFile.adapter.encode a) = some b ∧
      array_equal b a = true := by
  refine ⟨a, ?_, array_equal_refl a⟩
  show MatFile.decode (MatFile.encode a) = some a
  simp [MatFile.decode, MatFile.encode]

theorem rt_Binary (a : Arr) (hs : Binary.adapter.support a = true) :
    ∃ b, Binary.adapter.decode (Binary.adapter.encode a) = some b ∧
      array_equal b a = true := by
  obtain ⟨hwf, hdt, hrange⟩ := (binary_support_iff a).mp hs
  refine ⟨⟨a.rows, a.cols, "int64", a.data⟩, ?_, array_equal_mk a _⟩
  show Binary.decode (Binary.encode a) = _
  rw [Binary.encode, hdt]
  exact binary_decodeBytes_roundtrip a hwf hrange

theorem rt_BinaryGzip (a : Arr) (hs : BinaryGzip.adapter.support a = true) :
    ∃ b, BinaryGzip.adapter.decode (BinaryGzip.adapter.encode a) = some b ∧
      array_equal b a = true := by
  obtain ⟨hwf, hdt, hrange⟩ := (binary_support_iff a).mp hs
  refine ⟨⟨a.rows, a.cols, "int64", a.data⟩, ?_, array_equal_mk a _⟩
  show BinaryGzip.decode (BinaryGzip.encode a) = _
  rw [BinaryGzip.encode, hdt]
  exact binary_decodeBytes_roundtrip a hwf hrange

theorem rt_b64Enc (a : Arr) (hs : b64Enc.adapter.support a = true) :
    ∃ b, b64Enc.adapter.decode (b64Enc.adapter.encode a) = some b ∧
      array_equal b a = true := by
  obtain ⟨hwf, hdt, hrange⟩ := (binary_support_iff a).mp hs
  refine ⟨⟨a.rows, a.cols, "int64", a.data⟩, ?_, array_equal_mk a _⟩
  show b64Enc.decode (b64Enc.encode a) = _
  rw [b64Enc.encode, hdt]
  exact b64_decodeBytes_roundtrip a hwf hrange

theorem rt_FortUnf (a : Arr) (hs : FortUnf.adapter.support a = true) :
    ∃ b, FortUnf.adapter.decode (FortUnf.adapter.encode a) = some b ∧
      array_equal b a = true := by
  have hs' : (wfArr a && nonemptyArr a) = true := by
    have := hs
    simp only [FortUnf.adapter, FortUnf.support, Bool.and_eq_true] at this
    simp [Bool.and_eq_true, this.1.1, this.1.2]
  have h := (table_support_iff a).mp hs'
  refine ⟨⟨a.rows, a.cols, "float64", a.data⟩, ?_, array_equal_mk a _⟩
  show FortUnf.decode (FortUnf.encode a) = _
  rw [FortUnf.encode, FortUnf.decode]
  exact arrOfRows_takeRows "float64" a h.1 h.2.1

/-! ## Claim theorems -/

/-- C1: for every adapter in the enabled catalog and every 2-D numeric
array within that adapter's declared support class, `load` applied to
what `save` wrote returns an array elementwise identical to the original
(exact equality, no tolerance). -/
theorem c1_roundtrip_catalog :
    ∀ m ∈ METHODS, ∀ a : Arr, m.support a = true →
      ∃ b, m.decode (m.encode a) = some b ∧ array_equal b a = true := by
  intro m hm a hs
  simp only [METHODS, List.mem_cons, List.not_mem_nil, or_false] at hm
  rcases hm with rfl | rfl | rfl | rfl | rfl | rfl | rfl | rfl | rfl | rfl | rfl | rfl | rfl | rfl
  · exact rt_Csv a hs
  · exact rt_CsvGzip a hs
  · exact rt_JSON a
  · exact rt_JSONGzip a
  · exact rt_b64Enc a hs
  · exact rt_Pickle a
  · exact rt_PickleGzip a
  · exact rt_Binary a hs
  · exact rt_BinaryGzip a hs
  · exact rt_NPY a
  · exact rt_NPYCompr a
  · exact rt_PNG a
  · exact rt_FortUnf a hs
  · exact rt_MatFile a

theorem c1_roundtrip_catalog_witness :
    ∃ b, Binary.adapter.decode (Binary.adapter.encode ⟨2, 2, "int64", [1, -2, 3, -4]⟩) =
        some b ∧ array_equal b ⟨2, 2, "int64", [1, -2, 3, -4]⟩ = true :=
  c1_roundtrip_catalog Binary.adapter (by simp [METHODS])
    ⟨2, 2, "int64", [1, -2, 3, -4]⟩ (by decide)

/-- C2 counterexample: at a concrete tampered input (the stored pickle
holds `[2]` while the reference array holds `[1]`), `time_load` does
raise the verification failure naming the adapter, but the path has
already been removed when it does: the post-state file system no longer
contains the path, and in the statement trace the removal (index 3)
precedes the assertion failure (index 4).  So the failure is *not*
raised before deleting the path, refuting the claim as stated. -/
theorem c2_counterexample :
    (time_load Pickle.adapter ⟨none, none, none⟩ ⟨1, 1, "float64", [1]⟩ "arr.data"
        (fsSet (fun _ => none) "arr.data" (FileD.pickled ⟨1, 1, "float64", [2]⟩))
        0 7).2.2.1 = Except.error "load failed for Pickle" ∧
    fsGet (time_load Pickle.adapter ⟨none, none, none⟩ ⟨1, 1, "float64", [1]⟩ "arr.data"
        (fsSet (fun _ => none) "arr.data" (FileD.pickled ⟨1, 1, "float64", [2]⟩))
        0 7).2.1 "arr.data" = none ∧
    (time_load Pickle.adapter ⟨none, none, none⟩ ⟨1, 1, "float64", [1]⟩ "arr.data"
        (fsSet (fun _ => none) "arr.data" (FileD.pickled ⟨1, 1, "float64", [2]⟩))
        0 7).2.2.2 =
      [LoadEvent.loadEv "arr.data", LoadEvent.sumEv, LoadEvent.loadTimeEv,
       LoadEvent.removeEv "arr.data", LoadEvent.assertFailEv "load failed for Pickle"] :=
  ⟨rfl, rfl, rfl⟩

/-- C2 amended: for every adapter, if `load` returns an array that is not
elementwise equal to the reference array, `time_load` raises a
verification failure naming the adapter, but only after deleting the
path: the file is removed first (trace index 3) and the assertion
failure comes after it (trace index 4), so on failure the path no longer
exists. -/
theorem c2_fail_after_remove (m : Adapter) (st : TimeArrStorage)
    (ref_arr : Arr) (pth : String) (fs : FS) (t0 t1 : Int) (fd : FileD) (arr : Arr)
    (h1 : fsGet fs pth = some fd) (h2 : m.decode fd = some arr)
    (h3 : array_equal arr ref_arr = false) :
    (time_load m st ref_arr pth fs t0 t1).2.2.1 =
        Except.error ("load failed for " ++ m.name) ∧
    fsGet (time_load m st ref_arr pth fs t0 t1).2.1 pth = none ∧
    (time_load m st ref_arr pth fs t0 t1).2.2.2 =
      [LoadEvent.loadEv pth, LoadEvent.sumEv, LoadEvent.loadTimeEv,
       LoadEvent.removeEv pth, LoadEvent.assertFailEv ("load failed for " ++ m.name)] := by
  simp only [time_load, h1, h2, h3]
  simp [fsGet, fsRemove]

theorem c2_fail_after_remove_witness :
    (time_load JSON.adapter ⟨none, none, none⟩ ⟨1, 2, "float64", [5, 6]⟩ "x.json"
        (fsSet (fun _ => none) "x.json" (FileD.jsonD ⟨1, 2, "float64", [5, 7]⟩))
        0 3).2.2.1 = Except.error ("load failed for " ++ JSON.adapter.name) ∧
    fsGet (time_load JSON.adapter ⟨none, none, none⟩ ⟨1, 2, "float64", [5, 6]⟩ "x.json"
        (fsSet (fun _ => none) "x.json" (FileD.jsonD ⟨1, 2, "float64", [5, 7]⟩))
        0 3).2.1 "x.json" = none ∧
    (time_load JSON.adapter ⟨none, none, none⟩ ⟨1, 2, "float64", [5, 6]⟩ "x.json"
        (fsSet (fun _ => none) "x.json" (FileD.jsonD ⟨1, 2, "float64", [5, 7]⟩))
        0 3).2.2.2 =
      [LoadEvent.loadEv "x.json", LoadEvent.sumEv, LoadEvent.loadTimeEv,
       LoadEvent.removeEv "x.json",
       LoadEvent.assertFailEv ("load failed for " ++ JSON.adapter.name)] :=
  c2_fail_after_remove JSON.adapter ⟨none, none, none⟩ ⟨1, 2, "float64", [5, 6]⟩
    "x.json" (fsSet (fun _ => none) "x.json" (FileD.jsonD ⟨1, 2, "float64", [5, 7]⟩))
    0 3 (FileD.jsonD ⟨1, 2, "float64", [5, 7]⟩) ⟨1, 2, "float64", [5, 7]⟩
    rfl rfl (by decide)

/-- C3: for every adapter, on every successful `time_load` run the path
no longer exists afterwards, and the deletion happens only after the
elapsed load time has been recorded (trace: the load-time record at
index 2 precedes the removal at index 3), so deletion cost is excluded
from the measured load time. -/
theorem c3_destructive_load (m : Adapter) (st : TimeArrStorage)
    (ref_arr : Arr) (pth : String) (fs : FS) (t0 t1 : Int) (fd : FileD) (arr : Arr)
    (h1 : fsGet fs pth = some fd) (h2 : m.decode fd = some arr)
    (h3 : array_equal arr ref_arr = true) :
    (time_load m st ref_arr pth fs t0 t1).2.2.1 = Except.ok (arrSum arr) ∧
    fsGet (time_load m st ref_arr pth fs t0 t1).2.1 pth = none ∧
    (time_load m st ref_arr pth fs t0 t1).1.load_time = some (t1 - t0) ∧
    ((time_load m st ref_arr pth fs t0 t1).2.2.2)[2]? = some LoadEvent.loadTimeEv ∧
    ((time_load m st ref_arr pth fs t0 t1).2.2.2)[3]? = some (LoadEvent.removeEv pth) := by
  simp only [time_load, h1, h2, h3]
  simp [fsGet, fsRemove]

theorem c3_destructive_load_witness :
    (time_load NPY.adapter ⟨none, none, none⟩ ⟨2, 1, "int64", [4, 5]⟩ "a.npy"
        (fsSet (fun _ => none) "a.npy" (FileD.npyD ⟨2, 1, "int64", [4, 5]⟩))
        1 6).2.2.1 = Except.ok (arrSum ⟨2, 1, "int64", [4, 5]⟩) ∧
    fsGet (time_load NPY.adapter ⟨none, none, none⟩ ⟨2, 1, "int64", [4, 5]⟩ "a.npy"
        (fsSet (fun _ => none) "a.npy" (FileD.npyD ⟨2, 1, "int64", [4, 5]⟩))
        1 6).2.1 "a.npy" = none ∧
    (time_load NPY.adapter ⟨none, none, none⟩ ⟨2, 1, "int64", [4, 5]⟩ "a.npy"
        (fsSet (fun _ => none) "a.npy" (FileD.npyD ⟨2, 1, "int64", [4, 5]⟩))
        1 6).1.load_time = some (6 - 1) ∧
    ((time_load NPY.adapter ⟨none, none, none⟩ ⟨2, 1, "int64", [4, 5]⟩ "a.npy"
        (fsSet (fun _ => none) "a.npy" (FileD.npyD ⟨2, 1, "int64", [4, 5]⟩))
        1 6).2.2.2)[2]? = some LoadEvent.loadTimeEv ∧
    ((time_load NPY.adapter ⟨none, none, none⟩ ⟨2, 1, "int64", [4, 5]⟩ "a.npy"
        (fsSet (fun _ => none) "a.npy" (FileD.npyD ⟨2, 1, "int64", [4, 5]⟩))
        1 6).2.2.2)[3]? = some (LoadEvent.removeEv "a.npy") :=
  c3_destructive_load NPY.adapter ⟨none, none, none⟩ ⟨2, 1, "int64", [4, 5]⟩ "a.npy"
    (fsSet (fun _ => none) "a.npy" (FileD.npyD ⟨2, 1, "int64", [4, 5]⟩)) 1 6
    (FileD.npyD ⟨2, 1, "int64", [4, 5]⟩) ⟨2, 1, "int64", [4, 5]⟩ rfl rfl (by decide)

/-- C4: every adapter in the enabled catalog ends its `save` with the
`sync` step (`flush` then `fsync`), i.e. it forces an OS-level flush of
the written file to the storage device before returning, not merely an
application-level buffer flush.  (For the JSON adapters the fsync is
performed inside the external `json_tricks` codec via `force_flush`,
modelled from the spec's durability contract.) -/
theorem fsync_mem_append_sync (pre : List IOEvent) :
    IOEvent.fsyncEv ∈ pre ++ sync := by
  simp [sync]

theorem c4_save_syncs (m : Adapter) (hm : m ∈ METHODS) (a : Arr) :
    IOEvent.fsyncEv ∈ m.saveEvents a ∧ ∃ pre, m.saveEvents a = pre ++ sync := by
  simp only [METHODS, List.mem_cons, List.not_mem_nil, or_false] at hm
  rcases hm with rfl | rfl | rfl | rfl | rfl | rfl | rfl | rfl | rfl | rfl | rfl | rfl | rfl | rfl
  · exact ⟨fsync_mem_append_sync [.openEv, .writeEv], ⟨[.openEv, .writeEv], rfl⟩⟩
  · exact ⟨fsync_mem_append_sync [.openEv, .writeEv], ⟨[.openEv, .writeEv], rfl⟩⟩
  · exact ⟨fsync_mem_append_sync [.writeEv], ⟨[.writeEv], rfl⟩⟩
  · exact ⟨fsync_mem_append_sync [.writeEv], ⟨[.writeEv], rfl⟩⟩
  · exact ⟨fsync_mem_append_sync [.openEv, .writeEv, .writeEv],
      ⟨[.openEv, .writeEv, .writeEv], rfl⟩⟩
  · exact ⟨fsync_mem_append_sync [.openEv, .writeEv], ⟨[.openEv, .writeEv], rfl⟩⟩
  · exact ⟨fsync_mem_append_sync [.openEv, .writeEv], ⟨[.openEv, .writeEv], rfl⟩⟩
  · exact ⟨fsync_mem_append_sync [.openEv, .writeEv, .writeEv],
      ⟨[.openEv, .writeEv, .writeEv], rfl⟩⟩
  · exact ⟨fsync_mem_append_sync [.openEv, .writeEv, .writeEv],
      ⟨[.openEv, .writeEv, .writeEv], rfl⟩⟩
  · exact ⟨fsync_mem_append_sync [.openEv, .writeEv], ⟨[.openEv, .writeEv], rfl⟩⟩
  · exact ⟨fsync_mem_append_sync [.openEv, .writeEv], ⟨[.openEv, .writeEv], rfl⟩⟩
  · exact ⟨fsync_mem_append_sync [.openEv, .writeEv], ⟨[.openEv, .writeEv], rfl⟩⟩
  · exact ⟨fsync_mem_append_sync ([IOEvent.openEv] ++ List.replicate a.rows IOEvent.writeEv),
      ⟨[IOEvent.openEv] ++ List.replicate a.rows IOEvent.writeEv, rfl⟩⟩
  · exact ⟨fsync_mem_append_sync [.openEv, .writeEv], ⟨[.openEv, .writeEv], rfl⟩⟩

theorem c4_save_syncs_witness :
    IOEvent.fsyncEv ∈ Csv.adapter.saveEvents ⟨1, 1, "float64", [0]⟩ ∧
    ∃ pre, Csv.adapter.saveEvents ⟨1, 1, "float64", [0]⟩ = pre ++ sync :=
  c4_save_syncs Csv.adapter (by simp [METHODS]) ⟨1, 1, "float64", [0]⟩

/-- C5: the raw-binary and base64-binary adapters write a single ASCII
header line — the element-type name and the two dimensions, separated by
spaces (byte 32) and terminated by a newline (byte 10) — followed by the
payload bytes; `load` parses exactly that header and reshapes the
payload, so the round trip reproduces the shape and the original values
exactly. -/
theorem c5_binary_header_roundtrip (a : Arr)
    (hwf : a.data.length = a.rows * a.cols) (hdt : a.dtypeName = "int64")
    (hrange : ∀ v ∈ a.data, -9223372036854775808 ≤ v ∧ v < 9223372036854775808) :
    Binary.adapter.encode a =
      FileD.bytes (mkHeaderLine (asciiBytes a.dtypeName) a.rows a.cols ++
        valsToBytes a.data) ∧
    b64Enc.adapter.encode a =
      FileD.bytes (mkHeaderLine (asciiBytes a.dtypeName) a.rows a.cols ++
        b64e (valsToBytes a.data)) ∧
    (readLine (mkHeaderLine (asciiBytes a.dtypeName) a.rows a.cols ++
        valsToBytes a.data)).1 =
      asciiBytes a.dtypeName ++ 32 :: (natDigs a.rows ++ 32 :: (natDigs a.cols ++ [10])) ∧
    Binary.adapter.decode (Binary.adapter.encode a) =
      some ⟨a.rows, a.cols, "int64", a.data⟩ ∧
    b64Enc.adapter.decode (b64Enc.adapter.encode a) =
      some ⟨a.rows, a.cols, "int64", a.data⟩ := by
  refine ⟨rfl, rfl, ?_, ?_, ?_⟩
  · rw [hdt, headerBytes_assoc,
      readLine_header _ _ _ _ (by decide) (natDigs_ne_10 a.rows) (natDigs_ne_10 a.cols)]
  · show Binary.decode (Binary.encode a) = _
    rw [Binary.encode, hdt]
    exact binary_decodeBytes_roundtrip a hwf hrange
  · show b64Enc.decode (b64Enc.encode a) = _
    rw [b64Enc.encode, hdt]
    exact b64_decodeBytes_roundtrip a hwf hrange

theorem c5_binary_header_roundtrip_witness :
    Binary.adapter.encode ⟨4, 3, "int64", [3, -1, 4, 1, -5, 9, 2, -6, 5, 3, -5, 8]⟩ =
      FileD.bytes (mkHeaderLine (asciiBytes (Arr.dtypeName ⟨4, 3, "int64",
        [3, -1, 4, 1, -5, 9, 2, -6, 5, 3, -5, 8]⟩)) 4 3 ++
        valsToBytes [3, -1, 4, 1, -5, 9, 2, -6, 5, 3, -5, 8]) ∧
    b64Enc.adapter.encode ⟨4, 3, "int64", [3, -1, 4, 1, -5, 9, 2, -6, 5, 3, -5, 8]⟩ =
      FileD.bytes (mkHeaderLine (asciiBytes (Arr.dtypeName ⟨4, 3, "int64",
        [3, -1, 4, 1, -5, 9, 2, -6, 5, 3, -5, 8]⟩)) 4 3 ++
        b64e (valsToBytes [3, -1, 4, 1, -5, 9, 2, -6, 5, 3, -5, 8])) ∧
    (readLine (mkHeaderLine (asciiBytes (Arr.dtypeName ⟨4, 3, "int64",
        [3, -1, 4, 1, -5, 9, 2, -6, 5, 3, -5, 8]⟩)) 4 3 ++
        valsToBytes [3, -1, 4, 1, -5, 9, 2, -6, 5, 3, -5, 8])).1 =
      asciiBytes (Arr.dtypeName ⟨4, 3, "int64",
        [3, -1, 4, 1, -5, 9, 2, -6, 5, 3, -5, 8]⟩) ++
        32 :: (natDigs 4 ++ 32 :: (natDigs 3 ++ [10])) ∧
    Binary.adapter.decode (Binary.adapter.encode ⟨4, 3, "int64",
        [3, -1, 4, 1, -5, 9, 2, -6, 5, 3, -5, 8]⟩) =
      some ⟨4, 3, "int64", [3, -1, 4, 1, -5, 9, 2, -6, 5, 3, -5, 8]⟩ ∧
    b64Enc.adapter.decode (b64Enc.adapter.encode ⟨4, 3, "int64",
        [3, -1, 4, 1, -5, 9, 2, -6, 5, 3, -5, 8]⟩) =
      some ⟨4, 3, "int64", [3, -1, 4, 1, -5, 9, 2, -6, 5, 3, -5, 8]⟩ :=
  c5_binary_header_roundtrip ⟨4, 3, "int64", [3, -1, 4, 1, -5, 9, 2, -6, 5, 3, -5, 8]⟩
    (by decide) rfl (by decide)

/-- C6: the sequential-binary-record adapter writes one record per row
and no shape header; `load` reads the records back and reconstructs the
row count from the number of records read, so a saved r-by-c array
comes back with exactly `r` rows and the same elements. -/
theorem c6_fortunf_rows (a : Arr) (hs : FortUnf.adapter.support a = true) :
    FortUnf.adapter.encode a = FileD.recsD (takeRows a.rows a.cols a.data) ∧
    (takeRows a.rows a.cols a.data).length = a.rows ∧
    (∀ row ∈ takeRows a.rows a.cols a.data, row.length = a.cols) ∧
    ∃ b, FortUnf.adapter.decode (FortUnf.adapter.encode a) = some b ∧
      b.rows = a.rows ∧ array_equal b a = true := by
  have hs' : (wfArr a && nonemptyArr a) = true := by
    have h := hs
    simp only [FortUnf.adapter, FortUnf.support, Bool.and_eq_true] at h
    simp [Bool.and_eq_true, h.1.1, h.1.2]
  obtain ⟨hwf, hr, _⟩ := (table_support_iff a).mp hs'
  refine ⟨rfl, takeRows_length a.rows a.cols a.data,
    takeRows_mem_length a.rows a.cols a.data hwf,
    ⟨a.rows, a.cols, "float64", a.data⟩, ?_, rfl, array_equal_mk a _⟩
  show FortUnf.decode (FortUnf.encode a) = _
  rw [FortUnf.encode, FortUnf.decode]
  exact arrOfRows_takeRows "float64" a hwf hr

theorem c6_fortunf_rows_witness :
    FortUnf.adapter.encode ⟨5, 2, "float64", [1, 2, 3, 4, 5, 6, 7, 8, 9, 10]⟩ =
      FileD.recsD (takeRows 5 2 [1, 2, 3, 4, 5, 6, 7, 8, 9, 10]) ∧
    (takeRows 5 2 ([1, 2, 3, 4, 5, 6, 7, 8, 9, 10] : List Int)).length = 5 ∧
    (∀ row ∈ takeRows 5 2 ([1, 2, 3, 4, 5, 6, 7, 8, 9, 10] : List Int),
      row.length = 2) ∧
    ∃ b, FortUnf.adapter.decode (FortUnf.adapter.encode
        ⟨5, 2, "float64", [1, 2, 3, 4, 5, 6, 7, 8, 9, 10]⟩) = some b ∧
      b.rows = 5 ∧ array_equal b ⟨5, 2, "float64", [1, 2, 3, 4, 5, 6, 7, 8, 9, 10]⟩ = true :=
  c6_fortunf_rows ⟨5, 2, "float64", [1, 2, 3, 4, 5, 6, 7, 8, 9, 10]⟩ (by decide)

/-- C7: for every adapter, `time_load` computes the sum reduction of the
loaded array inside the timed region — the sum (trace index 1) precedes
the recording of the elapsed load time (trace index 2) — and on a
successful run returns that scalar as its result. -/
theorem c7_sum_in_timed_region (m : Adapter) (st : TimeArrStorage)
    (ref_arr : Arr) (pth : String) (fs : FS) (t0 t1 : Int) (fd : FileD) (arr : Arr)
    (h1 : fsGet fs pth = some fd) (h2 : m.decode fd = some arr) :
    ((time_load m st ref_arr pth fs t0 t1).2.2.2)[1]? = some LoadEvent.sumEv ∧
    ((time_load m st ref_arr pth fs t0 t1).2.2.2)[2]? = some LoadEvent.loadTimeEv ∧
    (array_equal arr ref_arr = true →
      (time_load m st ref_arr pth fs t0 t1).2.2.1 = Except.ok (arrSum arr)) := by
  cases h3 : array_equal arr ref_arr <;>
    simp [time_load, h1, h2, h3]

theorem c7_sum_in_timed_region_witness :
    ((time_load MatFile.adapter ⟨none, none, none⟩ ⟨1, 3, "float64", [7, 8, 9]⟩ "m.mat"
        (fsSet (fun _ => none) "m.mat" (FileD.matD [("data", ⟨1, 3, "float64", [7, 8, 9]⟩)]))
        2 9).2.2.2)[1]? = some LoadEvent.sumEv ∧
    ((time_load MatFile.adapter ⟨none, none, none⟩ ⟨1, 3, "float64", [7, 8, 9]⟩ "m.mat"
        (fsSet (fun _ => none) "m.mat" (FileD.matD [("data", ⟨1, 3, "float64", [7, 8, 9]⟩)]))
        2 9).2.2.2)[2]? = some LoadEvent.loadTimeEv ∧
    (array_equal ⟨1, 3, "float64", [7, 8, 9]⟩ ⟨1, 3, "float64", [7, 8, 9]⟩ = true →
      (time_load MatFile.adapter ⟨none, none, none⟩ ⟨1, 3, "float64", [7, 8, 9]⟩ "m.mat"
        (fsSet (fun _ => none) "m.mat" (FileD.matD [("data", ⟨1, 3, "float64", [7, 8, 9]⟩)]))
        2 9).2.2.1 = Except.ok (arrSum ⟨1, 3, "float64", [7, 8, 9]⟩)) :=
  c7_sum_in_timed_region MatFile.adapter ⟨none, none, none⟩ ⟨1, 3, "float64", [7, 8, 9]⟩
    "m.mat" (fsSet (fun _ => none) "m.mat"
      (FileD.matD [("data", ⟨1, 3, "float64", [7, 8, 9]⟩)])) 2 9
    (FileD.matD [("data", ⟨1, 3, "float64", [7, 8, 9]⟩)]) ⟨1, 3, "float64", [7, 8, 9]⟩
    rfl (by decide)

/-- C8: calling `time_save` twice in succession on the same adapter
instance leaves `save_time` and `storage_space` equal to what a single
(second) call would produce: the fields are overwritten, not
accumulated. -/
theorem c8_time_save_overwrites (m : Adapter) (st : TimeArrStorage) (arr : Arr)
    (pth : String) (fs : FS) (t0 t1 t2 t3 : Int) :
    ((time_save m (time_save m st arr pth fs t0 t1).1 arr pth
        (time_save m st arr pth fs t0 t1).2.1 t2 t3).1.save_time =
      (time_save m st arr pth fs t2 t3).1.save_time) ∧
    ((time_save m (time_save m st arr pth fs t0 t1).1 arr pth
        (time_save m st arr pth fs t0 t1).2.1 t2 t3).1.storage_space =
      (time_save m st arr pth fs t2 t3).1.storage_space) := by
  constructor
  · rfl
  · simp [time_save, getsize, fsGet, fsSet]

/-- C9: for every adapter, when the loaded array is not elementwise
identical to the reference array the result of `time_load` is an
assertion failure whose message is exactly `"load failed for "` followed
by the adapter's name (`__str__`, the class name); the mismatch is never
silently swallowed into a successful return. -/
theorem c9_verification_failure_named (m : Adapter) (st : TimeArrStorage)
    (ref_arr : Arr) (pth : String) (fs : FS) (t0 t1 : Int) (fd : FileD) (arr : Arr)
    (h1 : fsGet fs pth = some fd) (h2 : m.decode fd = some arr)
    (h3 : array_equal arr ref_arr = false) :
    (time_load m st ref_arr pth fs t0 t1).2.2.1 =
      Except.error ("load failed for " ++ m.name) := by
  simp [time_load, h1, h2, h3]

theorem c9_verification_failure_named_witness :
    (time_load Csv.adapter ⟨none, none, none⟩ ⟨1, 2, "float64", [1, 3]⟩ "t.csv"
        (fsSet (fun _ => none) "t.csv" (FileD.csvD [[1, 2]])) 0 4).2.2.1 =
      Except.error ("load failed for " ++ Csv.adapter.name) :=
  c9_verification_failure_named Csv.adapter ⟨none, none, none⟩ ⟨1, 2, "float64", [1, 3]⟩
    "t.csv" (fsSet (fun _ => none) "t.csv" (FileD.csvD [[1, 2]])) 0 4
    (FileD.csvD [[1, 2]]) ⟨1, 2, "float64", [1, 2]⟩ rfl (by decide) (by decide)

/-- C10: the constructor's `reps` parameter has no effect: instances
built with any two values of `reps` have identical initial state — all
three timing fields unset — and identical behaviour on every subsequent
`time_save` and `time_load` call (and `save`/`load` never read the
instance state at all). -/
theorem c10_reps_unused (r1 r2 : Nat) :
    TimeArrStorage.init r1 = TimeArrStorage.init r2 ∧
    (TimeArrStorage.init r1).save_time = none ∧
    (TimeArrStorage.init r1).load_time = none ∧
    (TimeArrStorage.init r1).storage_space = none ∧
    (∀ (m : Adapter) (arr : Arr) (pth : String) (fs : FS) (t0 t1 : Int),
      time_save m (TimeArrStorage.init r1) arr pth fs t0 t1 =
        time_save m (TimeArrStorage.init r2) arr pth fs t0 t1) ∧
    (∀ (m : Adapter) (ref_arr : Arr) (pth : String) (fs : FS) (t0 t1 : Int),
      time_load m (TimeArrStorage.init r1) ref_arr pth fs t0 t1 =
        time_load m (TimeArrStorage.init r2) ref_arr pth fs t0 t1) :=
  ⟨rfl, rfl, rfl, rfl, fun _ _ _ _ _ _ => rfl, fun _ _ _ _ _ _ => rfl⟩

end ArrayStorage
